import Mathlib

/-!
Shallow embedding of `src/clox.cpp`: a stack-based bytecode virtual machine
with a compact 32-bit instruction encoding (8-bit opcode tag, 24-bit operand),
an append-only chunk of encoded instructions paired with line numbers, an
owned constant pool of doubles, a disassembler and a fetch-decode-execute loop.

Modelling conventions:
* C++ `uint` / `uint32_t` / `size_t` values become `Nat`; truncation points of
  the source (the 24-bit bitfield `index_ : 24`) are modelled with explicit
  `% 2 ^ 24`.
* C++ `double` becomes `Float` (kept symbolic: no axiom-free kernel evaluation
  of floating-point arithmetic is attempted; the interpreter moves `Float`
  values around without deciding equalities on them).
* Fallible operations return `Except Fault _`.  `Except.error` models every
  way the source abandons normal control flow: the `FAIL` macro (prints and
  `exit(1)`) becomes `Fault.invalidOpcode`, `std::vector::at` throwing
  `std::out_of_range` becomes `Fault.indexOutOfRange`, and the two places
  where the source has genuine C++ undefined behaviour — `std::vector::back`
  on an empty vector in `VirtualMachine::pop_`, and control falling off the
  end of the non-void `Instruction::deserialize` when the low byte is 8..255
  (its `switch` has no `default` case) — become `Fault.undefinedBehavior`.
  `Fault.stackUnderflow` is part of the error taxonomy of the specification;
  the source never produces it (it has no emptiness check before popping).
* The output stream (`std::ostream`) is modelled as a list of abstract sink
  items.  Text rendering of doubles is not modelled; a written double is kept
  as the `Float` itself.  Renderings of naturals (zero padding, binary
  rendering, right justification) are modelled as actual strings.
-/

namespace Clox

/-- Every way the source program abandons normal control flow, plus the
`stackUnderflow` condition named by the specification's error taxonomy. -/
inductive Fault where
  | invalidOpcode
  | indexOutOfRange
  | stackUnderflow
  | undefinedBehavior
deriving DecidableEq

/-- `Instruction::Opcode`, including the `_Count` sentinel (here `count`). -/
inductive Opcode where
  | Return
  | Constant
  | Add
  | Subtract
  | Multiply
  | Divide
  | Negate
  | count
deriving DecidableEq

/-- The numeric tag of an opcode: `static_cast<uint8_t>(opcode_)`, following
the declaration order of the C++ enum. -/
def Opcode.tag : Opcode → Nat
  | .Return => 0
  | .Constant => 1
  | .Add => 2
  | .Subtract => 3
  | .Multiply => 4
  | .Divide => 5
  | .Negate => 6
  | .count => 7

/-- An `Instruction` value: `line_ : uint`, `opcode_ : Opcode`, and the 24-bit
bitfield `index_ : 24`.  Every instruction the C++ program can hold has
`index < 2 ^ 24`; all construction in this development goes through
`Instruction.make` / `Instruction.mkNoOperand`, which maintain that bound
exactly as the bitfield does. -/
structure Instruction where
  line : Nat
  opcode : Opcode
  index : Nat
deriving DecidableEq

/-- The three-argument constructor `Instruction(line, opcode, index)`: storing
into the 24-bit bitfield truncates the index modulo `2 ^ 24`. -/
def Instruction.make (line : Nat) (opcode : Opcode) (index : Nat) : Instruction :=
  ⟨line, opcode, index % 2 ^ 24⟩

/-- The two-argument constructor `Instruction(line, opcode)`.  The source
leaves `index_` uninitialized; it is never read for operand-less opcodes
(`serialize`, `step` and the disassembler consult `index_` only for
`Constant`), so the model fixes it to `0`. -/
def Instruction.mkNoOperand (line : Nat) (opcode : Opcode) : Instruction :=
  ⟨line, opcode, 0⟩

/-- `Instruction::serialize`: the word starts as the opcode tag; a `Constant`
ORs its operand shifted left by 8 into the word; the `_Count` sentinel hits
the `FAIL` macro. -/
def Instruction.serialize (i : Instruction) : Except Fault (Nat × Nat) :=
  match i.opcode with
  | .Constant => .ok (i.line, Opcode.tag .Constant ||| (i.index <<< 8))
  | .count => .error .invalidOpcode
  | op => .ok (i.line, op.tag)

/-- `Instruction::deserialize`: the opcode is the low byte `bytes & 0xff`; a
`Constant` recovers its operand as `bytes >> 8` (stored through the
three-argument constructor, hence modulo `2 ^ 24`); the sentinel tag 7 hits
`FAIL`.  The C++ `switch` has no `default` case, so for low bytes 8..255
control falls off the end of a non-void function: undefined behaviour,
modelled as `Fault.undefinedBehavior`. -/
def Instruction.deserialize (line : Nat) (bytes : Nat) : Except Fault Instruction :=
  match bytes &&& 0xff with
  | 0 => .ok (Instruction.mkNoOperand line .Return)
  | 1 => .ok (Instruction.make line .Constant (bytes >>> 8))
  | 2 => .ok (Instruction.mkNoOperand line .Add)
  | 3 => .ok (Instruction.mkNoOperand line .Subtract)
  | 4 => .ok (Instruction.mkNoOperand line .Multiply)
  | 5 => .ok (Instruction.mkNoOperand line .Divide)
  | 6 => .ok (Instruction.mkNoOperand line .Negate)
  | 7 => .error .invalidOpcode
  | _ => .error .undefinedBehavior

/-- The equality the round-trip claims speak about: same opcode, same line,
and — for `Constant` — the same operand index.  (The `index_` bitfield of an
operand-less instruction is uninitialized in the source, so it does not
participate in this notion of equality.) -/
def Instruction.equiv (a b : Instruction) : Prop :=
  a.opcode = b.opcode ∧ a.line = b.line ∧ (a.opcode = .Constant → a.index = b.index)

/-- `to_string(Instruction::Opcode)`: the `default` case hits `FAIL`. -/
def opcodeName : Opcode → Except Fault String
  | .Return => .ok "RETURN"
  | .Constant => .ok "CONSTANT"
  | .Add => .ok "ADD"
  | .Subtract => .ok "SUBTRACT"
  | .Multiply => .ok "MULTIPLY"
  | .Divide => .ok "DIVIDE"
  | .Negate => .ok "NEGATE"
  | .count => .error .invalidOpcode

/-- `std::vector::at`: checked random access; out of range throws
`std::out_of_range`, modelled as `Fault.indexOutOfRange`. -/
def vecAt {α : Type} (l : List α) (n : Nat) : Except Fault α :=
  if h : n < l.length then .ok (l.get ⟨n, h⟩) else .error .indexOutOfRange

/-- The `ConstantPool`: a `std::vector<double>`. -/
structure ConstantPool where
  constants : List Float

/-- `ConstantPool::get`: `constants_.at(offset)`. -/
def ConstantPool.get (p : ConstantPool) (offset : Nat) : Except Fault Float :=
  vecAt p.constants offset

/-- `ConstantPool::add`: push the value, return `size() - 1` (the index the
value was stored at) alongside the grown pool. -/
def ConstantPool.add (p : ConstantPool) (constant : Float) : Nat × ConstantPool :=
  (p.constants.length, ⟨p.constants ++ [constant]⟩)

/-- A `Chunk`: a diagnostic name, the parallel vectors `lines_` and `codes_`,
and the owned constant pool. -/
structure Chunk where
  name : String
  lines : List Nat
  codes : List Nat
  constant_pool : ConstantPool

/-- `Chunk(name)`: a fresh chunk with empty storage. -/
def Chunk.init (name : String) : Chunk :=
  ⟨name, [], [], ⟨[]⟩⟩

/-- `Chunk::get_length`: `codes_.size()`. -/
def Chunk.get_length (c : Chunk) : Nat :=
  c.codes.length

/-- `Chunk::read`: `Instruction::deserialize(lines_.at(offset), codes_.at(offset))`.
Either checked access may throw; decode happens on every read. -/
def Chunk.read (c : Chunk) (offset : Nat) : Except Fault Instruction := do
  let line ← vecAt c.lines offset
  let code ← vecAt c.codes offset
  Instruction.deserialize line code

/-- `Chunk::write`: serialize the instruction and append line and word to the
parallel vectors. -/
def Chunk.write (c : Chunk) (i : Instruction) : Except Fault Chunk := do
  let (line, code) ← i.serialize
  pure { c with lines := c.lines ++ [line], codes := c.codes ++ [code] }

/-- Left-fill a string with a given character up to a minimum width: the
model of `std::format` with `{:0>w}` (fill `'0'`) and `{:>w}` (fill `' '`). -/
def padLeft (fill : Char) (width : Nat) (s : String) : String :=
  String.mk (List.replicate (width - s.length) fill) ++ s

/-- The binary rendering of a word, as produced by `{:b}` (most significant
digit first, `"0"` for zero). -/
def binString (n : Nat) : String :=
  String.mk (Nat.toDigits 2 n)

/-- One line of disassembly output, `Chunk::disassemble(out, index)`: the four
common fields, and for a `Constant` the two extra fields — the width-6
right-justified rendering of the *chunk offset* `index` (the source formats
the function parameter `index`, not `constant_index`) and the resolved
constant value (text rendering of the double is not modelled; the `Float`
itself is carried). -/
structure DisassemblyLine where
  indexField : String
  lineField : String
  codeField : String
  opcodeField : String
  constantFields : Option (String × Float)

/-- `Chunk::disassemble(out, index)`: fetch the raw word (`codes_.at`), decode
the instruction, render the four common fields, and for a `Constant` look up
the pool value at the instruction's operand and append the two extra fields.
The `_Count` arm of the source's switch is unreachable (decode already fails
on tag 7) but is kept for structural fidelity. -/
def Chunk.disassembleAt (c : Chunk) (index : Nat) : Except Fault DisassemblyLine := do
  let code ← vecAt c.codes index
  let instr ← c.read index
  let name ← opcodeName instr.opcode
  let indexField := padLeft '0' 6 (toString index)
  let lineField := padLeft '0' 5 (toString instr.line)
  let codeField := padLeft '0' 32 (binString code)
  let opcodeField := padLeft ' ' 10 name
  match instr.opcode with
  | .Constant => do
    let value ← c.constant_pool.get instr.index
    pure ⟨indexField, lineField, codeField, opcodeField,
      some (padLeft ' ' 6 (toString index), value)⟩
  | .count => .error .invalidOpcode
  | _ => pure ⟨indexField, lineField, codeField, opcodeField, none⟩

/-- `VirtualMachine::Result`. -/
inductive Result where
  | Ok
  | CompileError
  | RuntimeError
deriving DecidableEq

/-- One item written to the output sink.  `trace` is the stack dump line
`[ v0 v1 ... ]` of `dump_` (held as the raw stack snapshot, bottom first),
`dis` a disassembly line, `value` a double written by `Return`, `newline` the
`std::endl` that follows it. -/
inductive SinkItem where
  | trace (stack : List Float)
  | dis (dl : DisassemblyLine)
  | value (v : Float)
  | newline

/-- The runtime-output items (the program's observable result channel), as
opposed to the debug trace emitted by `dump_`. -/
def SinkItem.isRuntime : SinkItem → Bool
  | .value _ => true
  | .newline => true
  | _ => false

namespace VirtualMachine

/-- `VirtualMachine::pop_`: reads `stack_.back()` and shrinks the vector.
There is no emptiness check: on an empty stack, `back()` is undefined
behaviour.  The stack top is the head of the list. -/
def pop_ : List Float → Except Fault (Float × List Float)
  | [] => .error .undefinedBehavior
  | v :: rest => .ok (v, rest)

/-- `VirtualMachine::push_`. -/
def push_ (value : Float) (stack : List Float) : List Float :=
  value :: stack

/-- `VirtualMachine::step`: dispatch on the opcode.  Binary operators pop the
right operand first, then the left, and push `left <op> right`; `Divide` is
plain floating-point division with no zero check.  The `default` arm of the
source's switch hits `FAIL("invalid opcode")`. -/
def step (c : Chunk) (instr : Instruction) (stack : List Float) :
    Except Fault (List Float × List SinkItem) :=
  match instr.opcode with
  | .Return => do
    let (value, s) ← pop_ stack
    pure (s, [.value value, .newline])
  | .Add => do
    let (right, s₁) ← pop_ stack
    let (left, s₂) ← pop_ s₁
    pure (push_ (left + right) s₂, [])
  | .Subtract => do
    let (right, s₁) ← pop_ stack
    let (left, s₂) ← pop_ s₁
    pure (push_ (left - right) s₂, [])
  | .Multiply => do
    let (right, s₁) ← pop_ stack
    let (left, s₂) ← pop_ s₁
    pure (push_ (left * right) s₂, [])
  | .Divide => do
    let (right, s₁) ← pop_ stack
    let (left, s₂) ← pop_ s₁
    pure (push_ (left / right) s₂, [])
  | .Negate => do
    let (value, s) ← pop_ stack
    pure (push_ (-value) s, [])
  | .Constant => do
    let value ← c.constant_pool.get instr.index
    pure (push_ value stack, [])
  | .count => .error .invalidOpcode

/-- `VirtualMachine::dump_` (compiled in: `DEBUG_TRACE_EXECUTION` is defined):
write the stack snapshot, then the disassembly of the instruction about to
execute. -/
def dump_ (c : Chunk) (ip : Nat) (stack : List Float) : Except Fault (List SinkItem) := do
  let dl ← c.disassembleAt ip
  pure [.trace stack, .dis dl]

/-- One iteration of the `while` loop of `VirtualMachine::run`: trace
(`DEBUG_TRACE_EXECUTION` is defined, so `dump_` runs), fetch `chunk_->read(ip_)`,
and `step` the instruction, accumulating the sink output. -/
def runLoop (c : Chunk) (acc : List Float × List SinkItem) (ip : Nat) :
    Except Fault (List Float × List SinkItem) := do
  let (stack, out) := acc
  let tr ← dump_ c ip stack
  let instr ← c.read ip
  let (stack', out') ← step c instr stack
  pure (stack', out ++ tr ++ out')

/-- `VirtualMachine::run` starting from instruction pointer `ip₀`: the
`while (ip_ < chunk_->get_length())` loop visits exactly the offsets
`ip₀, ip₀+1, ..., get_length − 1` (the chunk is not mutated while running and
`ip_` increases by one per iteration), tracing, fetching and stepping each
one; any fault aborts the loop.  Falling out of the loop returns
`Result::Ok` — the only `return` statement of the function. -/
def run (c : Chunk) (ip₀ : Nat) (stack₀ : List Float) :
    Except Fault (Result × List Float × List SinkItem) := do
  let (stack, out) ← (List.range' ip₀ (c.get_length - ip₀)).foldlM (runLoop c) (stack₀, [])
  pure (.Ok, stack, out)

end VirtualMachine

/-- The hardcoded program of `main`: three constants are interned while the
seven instructions are appended, then the VM runs over the chunk from
instruction pointer 0 with an empty stack. -/
def mainChunkE : Except Fault Chunk := do
  let a0 := Chunk.init "test chunk"
  let (i1, p1) := a0.constant_pool.add 1.2
  let a1 ← Chunk.write { a0 with constant_pool := p1 } (Instruction.make 1 .Constant i1)
  let (i2, p2) := a1.constant_pool.add 3.4
  let a2 ← Chunk.write { a1 with constant_pool := p2 } (Instruction.make 2 .Constant i2)
  let a3 ← a2.write (Instruction.mkNoOperand 3 .Add)
  let (i3, p3) := a3.constant_pool.add 5.6
  let a4 ← Chunk.write { a3 with constant_pool := p3 } (Instruction.make 4 .Constant i3)
  let a5 ← a4.write (Instruction.mkNoOperand 5 .Divide)
  let a6 ← a5.write (Instruction.mkNoOperand 6 .Negate)
  a6.write (Instruction.mkNoOperand 7 .Return)

/-- The chunk `main` builds (the construction never faults). -/
def mainChunk : Chunk :=
  mainChunkE.toOption.getD (Chunk.init "")

/-- `vm.run(std::cerr)` from `main`: instruction pointer 0, empty stack. -/
def mainRunE : Except Fault (Result × List Float × List SinkItem) := do
  let c ← mainChunkE
  VirtualMachine.run c 0 []


theorem lor_shiftLeft_and_255 (t x : Nat) (ht : t < 256) :
    (t ||| (x <<< 8)) &&& 255 = t := by
  have h255 : (255 : Nat) = 2 ^ 8 - 1 := rfl
  rw [h255, Nat.and_pow_two_sub_one_eq_mod]
  apply Nat.eq_of_testBit_eq
  intro i
  simp only [Nat.testBit_mod_two_pow, Nat.testBit_or, Nat.testBit_shiftLeft]
  by_cases hi : i < 8
  · have h8 : ¬ (i ≥ 8) := by omega
    simp [hi, h8]
  · have hlt : t < 2 ^ i :=
      lt_of_lt_of_le (show t < 2 ^ 8 from ht)
        (Nat.pow_le_pow_right (by norm_num) (by omega))
    simp [hi, Nat.testBit_lt_two_pow hlt]

theorem lor_shiftLeft_shiftRight (t x : Nat) (ht : t < 256) :
    (t ||| (x <<< 8)) >>> 8 = x := by
  apply Nat.eq_of_testBit_eq
  intro i
  have hlt : t < 2 ^ (8 + i) :=
    lt_of_lt_of_le (show t < 2 ^ 8 from ht)
      (Nat.pow_le_pow_right (by norm_num) (by omega))
  have hidx : 8 + i - 8 = i := by omega
  simp [Nat.testBit_shiftRight, Nat.testBit_or, Nat.testBit_shiftLeft,
    Nat.testBit_lt_two_pow hlt, hidx, Nat.le_add_right]

/-- The encoded word `serialize` produces for a non-sentinel instruction: the
opcode tag, with the operand ORed in (shifted by 8) for `Constant`. -/
def encodeWord (i : Instruction) : Nat :=
  match i.opcode with
  | .Constant => Opcode.tag .Constant ||| (i.index <<< 8)
  | op => op.tag

theorem serialize_eq_of_ne_count (i : Instruction) (h : i.opcode ≠ .count) :
    i.serialize = .ok (i.line, encodeWord i) := by
  obtain ⟨line, op, index⟩ := i
  cases op <;> first | rfl | exact absurd rfl h

theorem deserialize_encodeWord (i : Instruction) (h1 : i.opcode ≠ .count)
    (h2 : i.index < 2 ^ 24) :
    Instruction.deserialize i.line (encodeWord i) =
      .ok ⟨i.line, i.opcode, if i.opcode = .Constant then i.index else 0⟩ := by
  obtain ⟨line, op, index⟩ := i
  cases op
  case count => exact absurd rfl h1
  case Constant =>
    show Instruction.deserialize line (1 ||| (index <<< 8)) = .ok ⟨line, .Constant, index⟩
    have htag : (1 ||| (index <<< 8)) &&& 0xff = 1 :=
      lor_shiftLeft_and_255 1 index (by norm_num)
    have hshift : (1 ||| (index <<< 8)) >>> 8 = index :=
      lor_shiftLeft_shiftRight 1 index (by norm_num)
    have hstep : Instruction.deserialize line (1 ||| (index <<< 8)) =
        .ok (Instruction.make line .Constant ((1 ||| (index <<< 8)) >>> 8)) := by
      unfold Instruction.deserialize
      rw [htag]
    rw [hstep, hshift]
    have h2' : index < 2 ^ 24 := h2
    simp only [Instruction.make, Except.ok.injEq, Instruction.mk.injEq, true_and]
    omega
  all_goals (simp only [encodeWord, Opcode.tag]; rfl)

/-- Claim C1: for every instruction constructed with a known (non-sentinel)
opcode, any line, and — for `Constant` — any operand index below `2 ^ 24`,
deserializing the `(line, word)` pair produced by `serialize` yields an
instruction equal to the original: same opcode, same line, and, for
`Constant`, the same operand index. -/
theorem c1_serialize_deserialize_roundtrip (line : Nat) (op : Opcode) (idx : Nat)
    (hop : op ≠ .count) (hidx : op = .Constant → idx < 2 ^ 24) :
    ∃ j, (do
        let (l, w) ← (Instruction.make line op idx).serialize
        Instruction.deserialize l w : Except Fault Instruction) = .ok j ∧
      j.opcode = op ∧ j.line = line ∧ (op = .Constant → j.index = idx) := by
  have h1 : (Instruction.make line op idx).opcode ≠ .count := hop
  have h2 : (Instruction.make line op idx).index < 2 ^ 24 :=
    Nat.mod_lt _ (by norm_num)
  refine ⟨⟨line, op, if op = .Constant then idx % 2 ^ 24 else 0⟩, ?_, rfl, rfl, ?_⟩
  · rw [serialize_eq_of_ne_count _ h1]
    show Instruction.deserialize (Instruction.make line op idx).line
        (encodeWord (Instruction.make line op idx)) = _
    rw [deserialize_encodeWord _ h1 h2]
    rfl
  · intro h
    show (if op = Opcode.Constant then idx % 2 ^ 24 else 0) = idx
    rw [if_pos h]
    exact Nat.mod_eq_of_lt (hidx h)

/-- Witness for C1: the round trip at `line = 9`, opcode `Constant`,
operand `5`. -/
theorem c1_serialize_deserialize_roundtrip_witness :
    (Opcode.Constant ≠ Opcode.count) ∧ (Opcode.Constant = .Constant → 5 < 2 ^ 24) ∧
    (∃ j, (do
        let (l, w) ← (Instruction.make 9 .Constant 5).serialize
        Instruction.deserialize l w : Except Fault Instruction) = .ok j ∧
      j.opcode = .Constant ∧ j.line = 9 ∧ (Opcode.Constant = .Constant → j.index = 5)) :=
  ⟨by decide, by decide, c1_serialize_deserialize_roundtrip 9 .Constant 5 (by decide) (by decide)⟩

/-- Claim C2 (code bug): `deserialize` signals the invalid-opcode condition
only for the sentinel low byte 7; for every low byte from 8 through 255 the
source's switch has no `default` case and control falls off the end of the
non-void function — undefined behaviour, not an `InvalidOpcode` signal.
Evaluations at the failing input word 8 (and 255), at the sentinel word 7,
and the general statement for every word whose low byte is at least 8. -/
theorem c2_deserialize_unknown_low_bytes :
    Instruction.deserialize 1 7 = .error .invalidOpcode ∧
    Instruction.deserialize 1 8 = .error .undefinedBehavior ∧
    Instruction.deserialize 1 255 = .error .undefinedBehavior ∧
    Instruction.deserialize 1 (256 + 7) = .error .invalidOpcode ∧
    ∀ line bytes, 8 ≤ bytes &&& 0xff →
      Instruction.deserialize line bytes = .error .undefinedBehavior := by
  refine ⟨rfl, rfl, rfl, rfl, ?_⟩
  intro line bytes h
  unfold Instruction.deserialize
  obtain ⟨k, hk⟩ : ∃ k, bytes &&& 0xff = k + 8 := ⟨(bytes &&& 0xff) - 8, by omega⟩
  rw [hk]
  rfl

/-- Witness for C2: the general conjunct applied at word 8. -/
theorem c2_deserialize_unknown_low_bytes_witness :
    (8 ≤ 8 &&& 0xff) ∧ Instruction.deserialize 1 8 = .error .undefinedBehavior :=
  ⟨by decide, c2_deserialize_unknown_low_bytes.2.2.2.2 1 8 (by decide)⟩

/-- Claim C3: for every pair of doubles `a`, `b` and every starting stack,
pushing `a`, then `b`, then stepping a binary arithmetic opcode pops the
right operand first, then the left, and pushes `left <op> right`: `a - b`
for `Subtract`, `a / b` for `Divide` (plain floating-point division, no zero
check), `a + b` for `Add`, `a * b` for `Multiply`. -/
theorem c3_binary_arithmetic_operand_order (c : Chunk) (line ix : Nat)
    (a b : Float) (s : List Float) :
    VirtualMachine.step c ⟨line, .Subtract, ix⟩
        (VirtualMachine.push_ b (VirtualMachine.push_ a s)) =
      .ok (VirtualMachine.push_ (a - b) s, []) ∧
    VirtualMachine.step c ⟨line, .Divide, ix⟩
        (VirtualMachine.push_ b (VirtualMachine.push_ a s)) =
      .ok (VirtualMachine.push_ (a / b) s, []) ∧
    VirtualMachine.step c ⟨line, .Add, ix⟩
        (VirtualMachine.push_ b (VirtualMachine.push_ a s)) =
      .ok (VirtualMachine.push_ (a + b) s, []) ∧
    VirtualMachine.step c ⟨line, .Multiply, ix⟩
        (VirtualMachine.push_ b (VirtualMachine.push_ a s)) =
      .ok (VirtualMachine.push_ (a * b) s, []) :=
  ⟨rfl, rfl, rfl, rfl⟩

/-- Claim C7 (counterexample): stepping `Add` on an empty stack hits the
unchecked `stack_.back()` — modelled as the undefined-behaviour fault — which
is not a `StackUnderflow` signal, refuting the claim at a concrete input. -/
theorem c7_counterexample_empty_stack_add :
    VirtualMachine.step (Chunk.init "vm") ⟨1, .Add, 0⟩ [] = .error .undefinedBehavior ∧
    Fault.undefinedBehavior ≠ Fault.stackUnderflow :=
  ⟨rfl, by decide⟩

/-- Claim C7 (amended): for every arithmetic opcode (`Add`, `Subtract`,
`Multiply`, `Divide`, `Negate`), stepping against an empty operand stack
performs an unchecked pop (`std::vector::back` on an empty vector) —
undefined behaviour in the source, modelled as the undefined-behaviour
fault; no value is returned and no `StackUnderflow` condition is signalled. -/
theorem c7_amended_empty_stack_undefined (c : Chunk) (line ix : Nat) :
    VirtualMachine.step c ⟨line, .Add, ix⟩ [] = .error .undefinedBehavior ∧
    VirtualMachine.step c ⟨line, .Subtract, ix⟩ [] = .error .undefinedBehavior ∧
    VirtualMachine.step c ⟨line, .Multiply, ix⟩ [] = .error .undefinedBehavior ∧
    VirtualMachine.step c ⟨line, .Divide, ix⟩ [] = .error .undefinedBehavior ∧
    VirtualMachine.step c ⟨line, .Negate, ix⟩ [] = .error .undefinedBehavior :=
  ⟨rfl, rfl, rfl, rfl, rfl⟩

/-- Claim C10: the three-argument constructor stores `index % 2 ^ 24` (the
24-bit bitfield truncates); for every `Constant` instruction the serialized
word's low byte equals the `Constant` tag (the operand can never overwrite
the tag byte), and `deserialize` of that word recovers the operand modulo
`2 ^ 24`. -/
theorem c10_bitfield_truncation_and_tag_byte (line idx : Nat) (op : Opcode) :
    (Instruction.make line op idx).index = idx % 2 ^ 24 ∧
    (Instruction.make line .Constant idx).serialize =
      .ok (line, Opcode.tag .Constant ||| ((idx % 2 ^ 24) <<< 8)) ∧
    (Opcode.tag .Constant ||| ((idx % 2 ^ 24) <<< 8)) &&& 0xff = Opcode.tag .Constant ∧
    Instruction.deserialize line (Opcode.tag .Constant ||| ((idx % 2 ^ 24) <<< 8)) =
      .ok (Instruction.make line .Constant idx) := by
  refine ⟨rfl, rfl, ?_, ?_⟩
  · exact lor_shiftLeft_and_255 1 (idx % 2 ^ 24) (by norm_num)
  · have h2 : idx % 2 ^ 24 < 2 ^ 24 := Nat.mod_lt _ (by norm_num)
    exact deserialize_encodeWord ⟨line, .Constant, idx % 2 ^ 24⟩
      (fun hc => Opcode.noConfusion hc) h2

theorem vecAt_err {α : Type} (l : List α) (n : Nat) (h : l.length ≤ n) :
    vecAt l n = .error .indexOutOfRange := by
  unfold vecAt
  rw [dif_neg (by omega)]

/-- Claim C6: for every constant pool of length `L` and every `n ≥ L`,
`get(n)` signals the index-out-of-range condition (and returns no value);
likewise for every chunk of length `L` and every `m ≥ L`, `read(m)` signals
the index-out-of-range condition (and returns no instruction).  Both are
pure functions of the receiver, so neither mutates it. -/
theorem c6_out_of_range_get_and_read (p : ConstantPool) (c : Chunk) (n m : Nat)
    (hp : p.constants.length ≤ n) (hc : c.get_length ≤ m) :
    p.get n = .error .indexOutOfRange ∧ c.read m = .error .indexOutOfRange := by
  constructor
  · exact vecAt_err _ _ hp
  · by_cases h : m < c.lines.length
    · have h1 : vecAt c.lines m = .ok (c.lines.get ⟨m, h⟩) := by
        unfold vecAt
        rw [dif_pos h]
      have h2 : vecAt c.codes m = .error .indexOutOfRange := vecAt_err _ _ hc
      simp [Chunk.read, h1, h2, Except.bind, Bind.bind]
    · have h1 : vecAt c.lines m = .error .indexOutOfRange := vecAt_err _ _ (by omega)
      simp [Chunk.read, h1, Except.bind, Bind.bind]

/-- Witness for C6: the empty pool and a fresh chunk, both probed at index 0. -/
theorem c6_out_of_range_get_and_read_witness :
    ((⟨[]⟩ : ConstantPool).constants.length ≤ 0) ∧ ((Chunk.init "w").get_length ≤ 0) ∧
    ((⟨[]⟩ : ConstantPool).get 0 = .error .indexOutOfRange ∧
      (Chunk.init "w").read 0 = .error .indexOutOfRange) :=
  ⟨Nat.le.refl, Nat.le.refl, c6_out_of_range_get_and_read ⟨[]⟩ (Chunk.init "w") 0 0 Nat.le.refl Nat.le.refl⟩

/-- Claim C9: whenever `run` returns (rather than aborting on a fault), its
result is `Result::Ok`: no path through `run` or `step` produces
`CompileError` or `RuntimeError`. -/
theorem c9_run_result_always_ok (c : Chunk) (ip₀ : Nat) (st : List Float)
    (r : Result) (st' : List Float) (out : List SinkItem)
    (h : VirtualMachine.run c ip₀ st = .ok (r, st', out)) : r = .Ok := by
  unfold VirtualMachine.run at h
  cases hF : (List.range' ip₀ (c.get_length - ip₀)).foldlM (VirtualMachine.runLoop c) (st, []) with
  | error f =>
    rw [hF] at h
    exact Except.noConfusion h
  | ok p =>
    rw [hF] at h
    obtain ⟨stack, out'⟩ := p
    have h2 : (Except.ok (Result.Ok, stack, out') : Except Fault _) = Except.ok (r, st', out) := h
    simp only [Except.ok.injEq, Prod.mk.injEq] at h2
    exact h2.1.symm

/-- Witness for C9: `run` over a fresh empty chunk returns, with result `Ok`. -/
theorem c9_run_result_always_ok_witness :
    (VirtualMachine.run (Chunk.init "w") 0 [] = .ok (.Ok, [], [])) ∧ Result.Ok = Result.Ok :=
  ⟨rfl, c9_run_result_always_ok (Chunk.init "w") 0 [] .Ok [] [] rfl⟩

/-- Claim C4: running the VM over the chunk `main` builds — `Constant 1.2`,
`Constant 3.4`, `Add`, `Constant 5.6`, `Divide`, `Negate`, `Return` — from
instruction pointer 0 and an empty stack writes the value
`-((1.2 + 3.4) / 5.6)` followed by a line terminator to the sink (these are
the only runtime writes; the rest of the sink traffic is the debug trace),
returns `Ok`, and leaves the operand stack empty.  Floating-point arithmetic
is kept symbolic, so the second conjunct checks the claimed decimal
`-0.8214285714285714` against the exact rational value of the same
expression: they agree to within the 16 printed significant digits. -/
theorem c4_main_program_end_to_end :
    (mainRunE.toOption.map fun x => (x.1, x.2.1, x.2.2.filter SinkItem.isRuntime))
      = some (Result.Ok, ([] : List Float),
          [SinkItem.value (-((1.2 + 3.4) / 5.6)), SinkItem.newline]) ∧
    |(-(((12 : ℚ) / 10 + 34 / 10) / (56 / 10))) - (-(8214285714285714 : ℚ) / 10 ^ 16)| <
      1 / 10 ^ 16 :=
  ⟨rfl, by rw [abs_sub_lt_iff]; constructor <;> norm_num⟩

/-- Claim C8 (counterexample): at chunk offset 3 of the program `main`
builds, the `Constant` instruction's pool operand is 2, yet the width-6
extra field of its disassembly renders the chunk offset 3 — the source
formats the `index` parameter, not `constant_index` — so the field differs
from the rendering of the operand index. -/
theorem c8_counterexample_offset_not_operand :
    (mainChunk.read 3).toOption.map Instruction.index = some 2 ∧
    ((mainChunk.disassembleAt 3).toOption.bind (fun dl => dl.constantFields)).map Prod.fst
      = some (padLeft ' ' 6 (toString (3 : Nat))) ∧
    padLeft ' ' 6 (toString (3 : Nat)) = "     3" ∧
    "     3" ≠ padLeft ' ' 6 (toString (2 : Nat)) := by
  refine ⟨rfl, rfl, rfl, ?_⟩
  decide

/-- Claim C8 (amended): for every chunk and in-range offset holding a
`Constant` whose operand is within the pool, the disassembly line consists of
the four common fields (6-wide zero-padded offset, 5-wide zero-padded line,
32-wide zero-padded binary word, 10-wide right-justified opcode name)
followed by two right-justified extra fields: the width-6 rendering of the
chunk offset itself (not of the pool operand), and the value resolved from
the pool at the instruction's operand index. -/
theorem c8_amended_constant_disassembly_fields (c : Chunk) (i : Nat)
    (instr : Instruction) (code : Nat) (v : Float)
    (hcode : vecAt c.codes i = .ok code)
    (hread : c.read i = .ok instr)
    (hop : instr.opcode = .Constant)
    (hv : c.constant_pool.get instr.index = .ok v) :
    c.disassembleAt i = .ok
      ⟨padLeft '0' 6 (toString i), padLeft '0' 5 (toString instr.line),
       padLeft '0' 32 (binString code), padLeft ' ' 10 "CONSTANT",
       some (padLeft ' ' 6 (toString i), v)⟩ := by
  simp [Chunk.disassembleAt, hcode, hread, hop, hv, opcodeName, Except.bind, Bind.bind]
  rfl

/-- Witness for C8 (amended): the main chunk at offset 3 (operand 2,
value 5.6). -/
theorem c8_amended_constant_disassembly_fields_witness :
    (vecAt mainChunk.codes 3 = .ok 513) ∧
    (mainChunk.read 3 = .ok ⟨4, .Constant, 2⟩) ∧
    ((⟨4, .Constant, 2⟩ : Instruction).opcode = .Constant) ∧
    (mainChunk.constant_pool.get (⟨4, .Constant, 2⟩ : Instruction).index = .ok 5.6) ∧
    mainChunk.disassembleAt 3 = .ok
      ⟨padLeft '0' 6 (toString (3 : Nat)), padLeft '0' 5 (toString (4 : Nat)),
       padLeft '0' 32 (binString 513), padLeft ' ' 10 "CONSTANT",
       some (padLeft ' ' 6 (toString (3 : Nat)), 5.6)⟩ :=
  ⟨rfl, rfl, rfl, rfl,
    c8_amended_constant_disassembly_fields mainChunk 3 ⟨4, .Constant, 2⟩ 513 5.6 rfl rfl rfl rfl⟩

/-- A sequence of `Chunk::write` calls, in order. -/
def writeAll (c : Chunk) (l : List Instruction) : Except Fault Chunk :=
  l.foldlM Chunk.write c

theorem write_ok (c : Chunk) (i : Instruction) (h : i.opcode ≠ .count) :
    c.write i = .ok { c with lines := c.lines ++ [i.line], codes := c.codes ++ [encodeWord i] } := by
  unfold Chunk.write
  rw [serialize_eq_of_ne_count i h]
  rfl

theorem writeAll_ok (l : List Instruction) (c : Chunk) (h : ∀ i ∈ l, i.opcode ≠ .count) :
    writeAll c l = .ok { c with lines := c.lines ++ l.map Instruction.line,
                                codes := c.codes ++ l.map encodeWord } := by
  induction l generalizing c with
  | nil =>
    simp only [writeAll, List.foldlM_nil, List.map_nil, List.append_nil]
    rfl
  | cons i rest ih =>
    have hi : i.opcode ≠ .count := h i (List.mem_cons_self i rest)
    simp only [writeAll, List.foldlM_cons]
    rw [write_ok c i hi]
    show writeAll { c with lines := c.lines ++ [i.line], codes := c.codes ++ [encodeWord i] } rest = _
    rw [ih _ (fun j hj => h j (List.mem_cons_of_mem i hj))]
    simp

theorem read_of_built_chunk (name : String) (l : List Instruction) (k : Nat)
    (hk : k < l.length) (hcount : (l.get ⟨k, hk⟩).opcode ≠ .count)
    (hbound : (l.get ⟨k, hk⟩).index < 2 ^ 24) :
    (⟨name, l.map Instruction.line, l.map encodeWord, ⟨[]⟩⟩ : Chunk).read k =
      .ok ⟨(l.get ⟨k, hk⟩).line, (l.get ⟨k, hk⟩).opcode,
        if (l.get ⟨k, hk⟩).opcode = .Constant then (l.get ⟨k, hk⟩).index else 0⟩ := by
  have e1 : vecAt (l.map Instruction.line) k = .ok ((l.get ⟨k, hk⟩).line) := by
    unfold vecAt
    rw [dif_pos (show k < (l.map Instruction.line).length by simpa using hk)]
    simp
  have e2 : vecAt (l.map encodeWord) k = .ok (encodeWord (l.get ⟨k, hk⟩)) := by
    unfold vecAt
    rw [dif_pos (show k < (l.map encodeWord).length by simpa using hk)]
    simp
  simp only [Chunk.read, e1, e2, Except.bind, Bind.bind]
  exact deserialize_encodeWord _ hcount hbound

/-- Claim C5: writing keeps the line and word sequences in lockstep (every
`write` appends one element to each), and after any sequence of `n` writes
of constructible instructions (operand below `2 ^ 24`, opcode not the
sentinel) into a fresh chunk, `get_length` is `n` and `read i` decodes, for
each `i < n`, to an instruction equal (same opcode, line and — for
`Constant` — operand) to the one passed to the `i`-th write. -/
theorem c5_chunk_write_length_and_roundtrip (name : String) (l : List Instruction)
    (h : ∀ i ∈ l, i.opcode ≠ .count ∧ i.index < 2 ^ 24) :
    (∀ (c : Chunk) (i : Instruction) (c' : Chunk),
        c.lines.length = c.codes.length → c.write i = .ok c' →
        c'.lines.length = c'.codes.length) ∧
    ∃ c, writeAll (Chunk.init name) l = .ok c ∧
      c.lines.length = c.codes.length ∧
      c.get_length = l.length ∧
      ∀ k (hk : k < l.length), ∃ j, c.read k = .ok j ∧ (l.get ⟨k, hk⟩).equiv j := by
  constructor
  · intro c i c' hlen hw
    unfold Chunk.write at hw
    cases hs : i.serialize with
    | error f =>
      rw [hs] at hw
      exact Except.noConfusion hw
    | ok p =>
      rw [hs] at hw
      obtain ⟨line, code⟩ := p
      have h4 : (Except.ok { c with lines := c.lines ++ [line], codes := c.codes ++ [code] } :
          Except Fault Chunk) = .ok c' := hw
      have h3 := Except.ok.inj h4
      rw [← h3]
      simp [hlen]
  · refine ⟨⟨name, l.map Instruction.line, l.map encodeWord, ⟨[]⟩⟩, ?_, by simp, ?_, ?_⟩
    · rw [writeAll_ok l (Chunk.init name) (fun i hi => (h i hi).1)]
      simp [Chunk.init]
    · simp [Chunk.get_length]
    · intro k hk
      obtain ⟨hcount, hbound⟩ := h _ (List.get_mem l k hk)
      refine ⟨_, read_of_built_chunk name l k hk hcount hbound, rfl, rfl, ?_⟩
      intro hC
      show (l.get ⟨k, hk⟩).index =
        (if (l.get ⟨k, hk⟩).opcode = .Constant then (l.get ⟨k, hk⟩).index else 0)
      rw [if_pos hC]

/-- Witness for C5: two writes — `Return` at line 1 and `Constant 1` at line
2 — into a fresh chunk. -/
theorem c5_chunk_write_length_and_roundtrip_witness :
    (∀ i ∈ [Instruction.make 1 .Return 0, Instruction.make 2 .Constant 1],
        i.opcode ≠ .count ∧ i.index < 2 ^ 24) ∧
    ((∀ (c : Chunk) (i : Instruction) (c' : Chunk),
        c.lines.length = c.codes.length → c.write i = .ok c' →
        c'.lines.length = c'.codes.length) ∧
    ∃ c, writeAll (Chunk.init "w")
          [Instruction.make 1 .Return 0, Instruction.make 2 .Constant 1] = .ok c ∧
      c.lines.length = c.codes.length ∧
      c.get_length = [Instruction.make 1 .Return 0, Instruction.make 2 .Constant 1].length ∧
      ∀ k (hk : k < [Instruction.make 1 .Return 0, Instruction.make 2 .Constant 1].length),
        ∃ j, c.read k = .ok j ∧
          ([Instruction.make 1 .Return 0, Instruction.make 2 .Constant 1].get ⟨k, hk⟩).equiv j) :=
  ⟨by decide, c5_chunk_write_length_and_roundtrip "w"
    [Instruction.make 1 .Return 0, Instruction.make 2 .Constant 1] (by decide)⟩

end Clox
